import Mathlib

/-!
Shallow embedding of the plugin manager in src/src/plugins.c: loading a
module (plugin_new), duplicate detection by canonical module name
(plugin_loaded), the ABI version gate (plugin_check_version), the directory
scan (plugins_init), and teardown (plugin_free, plugins_free).

Effects of the dynamic loader and of plugin entry points are recorded as an
event trace, in the order the code performs them. Machine integers are
modelled as Int; strings as String.
-/

namespace Geany

/-- Observable events of the dynamic loader and of plugin entry points, in
the order the manager performs them. A moduleClosed event is the
g_module_close call (the release attempt); logWarning is a g_warning call. -/
inductive Event where
  | moduleOpened (name : String)
  | moduleClosed (name : String)
  | initCalled (name : String)
  | cleanupCalled (name : String)
  | logWarning
deriving DecidableEq, Repr

/-- Model of an opened GModule handle: the loader-resolved canonical name
returned by g_module_name (the .so name, even when opened via an .la path),
the exported symbols, and whether g_module_close succeeds on it. -/
structure GModule where
  name : String
  version_check : Option (Int → Int)
  has_info : Bool
  has_init : Bool
  has_cleanup : Bool
  closeOk : Bool

/-- Model of the dynamic-loading environment: g_module_supported,
g_module_open with flags 0 (eager binding; returns none on failure), and the
host abi_version. -/
structure Loader where
  supported : Bool
  openModule : String → Option GModule
  abi_version : Int

/-- Record of one loaded plugin (struct Plugin): the module handle, the
filename it was opened from, and whether the optional init and cleanup
symbols resolved (the mandatory info symbol is present by construction). -/
structure Plugin where
  module : GModule
  filename : String
  init : Bool
  cleanup : Bool

/-- Model of utils_str_equal on non-null strings. -/
def utils_str_equal (a b : String) : Bool := a == b

/-- Translation of plugin_loaded: compare the canonical name
(g_module_name) of the candidate module against the canonical name of every
record in the live list. -/
def plugin_loaded (plugin_list : List Plugin) (module : GModule) : Bool :=
  plugin_list.any (fun p => utils_str_equal module.name p.module.name)

/-- Outcome of plugin_check_version. The C function returns FALSE in both
failing branches and logs a distinct diagnostic in each; the tag records
which branch ran (tooOld for a negative result, requiresNewer with the
returned minimum for a positive result). -/
inductive VersionGate where
  | ok
  | tooOld
  | requiresNewer (min_version : Int)
deriving DecidableEq, Repr

/-- Translation of plugin_check_version: resolve the optional version_check
symbol; an absent symbol means compatible; otherwise the sign of
version_check(abi_version) decides. -/
def plugin_check_version (abi_version : Int) (module : GModule) : VersionGate :=
  match module.version_check with
  | none => VersionGate.ok
  | some vc =>
    let result := vc abi_version
    if result < 0 then VersionGate.tooOld
    else if result > 0 then VersionGate.requiresNewer result
    else VersionGate.ok

/-- Rejection reasons of plugin_new, one per distinct failure branch of the
C function (which returns NULL on each one, logging which branch ran). -/
inductive LoadError where
  | NullPath
  | NotSupported
  | OpenFailed
  | AlreadyLoaded
  | TooOld
  | RequiresNewerHost (min_version : Int)
  | MissingInfo
deriving DecidableEq, Repr

/-- Events of the g_module_close call on a rejection path of plugin_new:
the release attempt, followed by a g_warning when the close fails. -/
def close_module (m : GModule) : List Event :=
  Event.moduleClosed m.name :: (if m.closeOk then [] else [Event.logWarning])

/-- Translation of plugin_new: the two g_return_val_if_fail guards, then
g_module_open, the duplicate check, the version gate, the mandatory info
symbol, resolution of the optional init and cleanup symbols, and the init
call when init is present. Returns the result (the C function returns the
new record or NULL) together with the event trace. -/
def plugin_new (L : Loader) (plugin_list : List Plugin) (fname : Option String) :
    Except LoadError Plugin × List Event :=
  match fname with
  | none => (Except.error LoadError.NullPath, [])
  | some fname =>
    if L.supported = false then (Except.error LoadError.NotSupported, [])
    else
      match L.openModule fname with
      | none => (Except.error LoadError.OpenFailed, [Event.logWarning])
      | some module =>
        if plugin_loaded plugin_list module then
          (Except.error LoadError.AlreadyLoaded,
            Event.moduleOpened module.name :: close_module module)
        else
          match plugin_check_version L.abi_version module with
          | VersionGate.tooOld =>
            (Except.error LoadError.TooOld,
              Event.moduleOpened module.name :: close_module module)
          | VersionGate.requiresNewer n =>
            (Except.error (LoadError.RequiresNewerHost n),
              Event.moduleOpened module.name :: close_module module)
          | VersionGate.ok =>
            if module.has_info = false then
              (Except.error LoadError.MissingInfo,
                Event.moduleOpened module.name :: close_module module)
            else
              (Except.ok ⟨module, fname, module.has_init, module.has_cleanup⟩,
                Event.moduleOpened module.name ::
                  (if module.has_init then [Event.initCalled module.name] else []))

/-- Translation of plugin_free: call the cleanup entry point when present,
then g_module_close; a close failure is logged with g_warning, not
escalated. -/
def plugin_free (p : Plugin) : List Event :=
  (if p.cleanup then [Event.cleanupCalled p.module.name] else []) ++
    Event.moduleClosed p.module.name ::
      (if p.module.closeOk then [] else [Event.logWarning])

/-- Directory separator G_DIR_SEPARATOR_S. -/
def G_DIR_SEPARATOR_S : String := "/"

/-- Translation of the scan loop of plugins_init over the file names
returned by the external discovery helper: each iteration concatenates the
directory path and the file name, calls plugin_new, and on success appends
the new record at the tail of the live list (g_list_append); on failure the
list is unchanged and the loop continues with the next file. The returned
triple is the live list, the per-file outcome report (none for a loaded
file, some e for a rejection), and the event trace. -/
def plugins_init (L : Loader) (path : String) (items : List String)
    (plugin_list : List Plugin) :
    List Plugin × List (Option LoadError) × List Event :=
  match items with
  | [] => (plugin_list, [], [])
  | item :: rest =>
    match plugin_new L plugin_list (some (path ++ G_DIR_SEPARATOR_S ++ item)) with
    | (Except.ok p, ev) =>
      ((plugins_init L path rest (plugin_list ++ [p])).1,
        none :: (plugins_init L path rest (plugin_list ++ [p])).2.1,
        ev ++ (plugins_init L path rest (plugin_list ++ [p])).2.2)
    | (Except.error e, ev) =>
      ((plugins_init L path rest plugin_list).1,
        some e :: (plugins_init L path rest plugin_list).2.1,
        ev ++ (plugins_init L path rest plugin_list).2.2)

/-- Events of plugins_free: g_list_foreach applies plugin_free to every
record from the front of the list to the back, with no early exit. -/
def plugins_free_events : List Plugin → List Event
  | [] => []
  | p :: rest => plugin_free p ++ plugins_free_events rest

/-- Translation of plugins_free: frees every record (plugin_free) and then
the list cells (g_list_free), but never assigns the global plugin_list
variable, which therefore keeps its old value after the call. The result is
the value of the global after the call, paired with the event trace. -/
def plugins_free (plugin_list : List Plugin) : List Plugin × List Event :=
  (plugin_list, plugins_free_events plugin_list)

/-- Canonical module names of the records in the live list. -/
def liveNames (plugin_list : List Plugin) : List String :=
  plugin_list.map (fun p => p.module.name)

/-- Statement that no two records in the live list resolve to the same
canonical module identity. -/
abbrev DistinctNames (plugin_list : List Plugin) : Prop :=
  (liveNames plugin_list).Nodup

/-- Predicate selecting the unload events that belong to the record with
the given canonical name: its cleanup call and its handle release. -/
def isRecordEvent (name : String) : Event → Bool
  | Event.cleanupCalled n => n == name
  | Event.moduleClosed n => n == name
  | _ => false

/-- Number of moduleOpened events in a trace. -/
def countOpened (tr : List Event) : Nat :=
  (tr.filter fun e => match e with | Event.moduleOpened _ => true | _ => false).length

/-- Number of moduleClosed events in a trace. -/
def countClosed (tr : List Event) : Nat :=
  (tr.filter fun e => match e with | Event.moduleClosed _ => true | _ => false).length

/-- Example module for concrete evaluations: exports every symbol and has
no version_check, so it is compatible with any host. -/
def mA : GModule := ⟨"liba.so", none, true, true, true, true⟩

/-- Example module with the same canonical name as mA: the loader resolves
an alias path to the same module. -/
def mB : GModule := ⟨"liba.so", none, true, true, true, true⟩

/-- Example module whose version_check reports it is too old. -/
def mOld : GModule := ⟨"libold.so", some (fun _ => -1), true, false, false, true⟩

/-- Example module whose version_check requires a newer host, minimum 1. -/
def mNew : GModule := ⟨"libnew.so", some (fun _ => 1), true, false, false, true⟩

/-- Example module that does not export the mandatory info symbol. -/
def mNoInfo : GModule := ⟨"libnoinfo.so", none, false, false, false, true⟩

/-- Example module exporting info but neither init nor cleanup, with a
version_check that returns 0. -/
def mBare : GModule := ⟨"libbare.so", some (fun _ => 0), true, false, false, true⟩

/-- Example module whose g_module_close fails, producing a logged warning. -/
def mBadClose : GModule := ⟨"libbad.so", none, true, true, true, false⟩

/-- Example open map resolving a few fixed paths to the example modules. -/
def openMap : String → Option GModule := fun s =>
  if s = "dir/a" then some mA
  else if s = "dir/b" then some mB
  else if s = "dir/old" then some mOld
  else if s = "dir/new" then some mNew
  else if s = "dir/noinfo" then some mNoInfo
  else if s = "dir/bare" then some mBare
  else if s = "dir/bad" then some mBadClose
  else none

/-- Example loader environment with module support available. -/
def L0 : Loader := ⟨true, openMap, 69⟩

/-- Example loader environment on a platform without module support. -/
def Lunsupported : Loader := ⟨false, fun _ => none, 69⟩

/-- Example live record for mA. -/
def pA : Plugin := ⟨mA, "dir/a", true, true⟩

/-- Example live record for mBadClose. -/
def pBad : Plugin := ⟨mBadClose, "dir/bad", true, true⟩

/-- Example live record for mBare. -/
def pBare : Plugin := ⟨mBare, "dir/bare", false, false⟩

/-- Predicate, following the wording of the spec error-handling section,
that a load attempt leaks no handle: a successful attempt opens exactly
once and closes nothing; the guard rejections and a failed open hold no
handle; every rejection after a successful open closes exactly once. -/
def NoLeak : Except LoadError Plugin × List Event → Prop
  | (Except.ok _, tr) => countOpened tr = 1 ∧ countClosed tr = 0
  | (Except.error LoadError.NullPath, tr) => tr = []
  | (Except.error LoadError.NotSupported, tr) => tr = []
  | (Except.error LoadError.OpenFailed, tr) => countOpened tr = 0 ∧ countClosed tr = 0
  | (Except.error _, tr) => countOpened tr = 1 ∧ countClosed tr = 1

theorem plugin_loaded_eq_true_iff (plist : List Plugin) (m : GModule) :
    plugin_loaded plist m = true ↔ m.name ∈ liveNames plist := by
  simp only [plugin_loaded, utils_str_equal, liveNames, List.any_eq_true,
    List.mem_map, beq_iff_eq]
  constructor
  · rintro ⟨p, hp, he⟩
    exact ⟨p, hp, he.symm⟩
  · rintro ⟨p, hp, he⟩
    exact ⟨p, hp, he.symm⟩

theorem plugin_loaded_eq_false_iff (plist : List Plugin) (m : GModule) :
    plugin_loaded plist m = false ↔ m.name ∉ liveNames plist := by
  rw [← plugin_loaded_eq_true_iff]
  constructor
  · intro h hc
    rw [h] at hc
    cases hc
  · intro h
    cases hb : plugin_loaded plist m
    · rfl
    · exact absurd hb h

theorem plugin_new_opened (L : Loader) (plist : List Plugin) (fname : String)
    (m : GModule) (hs : L.supported = true) (ho : L.openModule fname = some m)
    (hd : plugin_loaded plist m = false) :
    plugin_new L plist (some fname) =
      match plugin_check_version L.abi_version m with
      | VersionGate.tooOld =>
        (Except.error LoadError.TooOld,
          Event.moduleOpened m.name :: close_module m)
      | VersionGate.requiresNewer n =>
        (Except.error (LoadError.RequiresNewerHost n),
          Event.moduleOpened m.name :: close_module m)
      | VersionGate.ok =>
        if m.has_info = false then
          (Except.error LoadError.MissingInfo,
            Event.moduleOpened m.name :: close_module m)
        else
          (Except.ok ⟨m, fname, m.has_init, m.has_cleanup⟩,
            Event.moduleOpened m.name ::
              (if m.has_init then [Event.initCalled m.name] else [])) := by
  simp [plugin_new, hs, ho, hd]

theorem plugin_new_ok_shape (L : Loader) (plist : List Plugin) (f : String)
    (p : Plugin) (ev : List Event)
    (h : plugin_new L plist (some f) = (Except.ok p, ev)) :
    plugin_loaded plist p.module = false := by
  by_cases hs : L.supported = false
  · simp [plugin_new, hs] at h
  · rw [Bool.not_eq_false] at hs
    rcases hm : L.openModule f with _ | m
    · simp [plugin_new, hs, hm] at h
    · by_cases hl : plugin_loaded plist m = true
      · simp [plugin_new, hs, hm, hl] at h
      · rw [Bool.not_eq_true] at hl
        rw [plugin_new_opened L plist f m hs hm hl] at h
        rcases hv : plugin_check_version L.abi_version m with _ | _ | n <;>
          rw [hv] at h
        · by_cases hi : m.has_info = false
          · simp [hi] at h
          · simp [hi] at h
            have hpm : p.module = m := by
              rw [← h.1]
            rw [hpm]
            exact hl
        · simp at h
        · simp at h

theorem plugins_init_single_error (L : Loader) (path item : String)
    (plist : List Plugin) (e : LoadError) (ev : List Event)
    (h : plugin_new L plist (some (path ++ G_DIR_SEPARATOR_S ++ item)) =
      (Except.error e, ev)) :
    plugins_init L path [item] plist = (plist, [some e], ev) := by
  simp [plugins_init, h]

theorem plugins_init_single_ok (L : Loader) (path item : String)
    (plist : List Plugin) (p : Plugin) (ev : List Event)
    (h : plugin_new L plist (some (path ++ G_DIR_SEPARATOR_S ++ item)) =
      (Except.ok p, ev)) :
    plugins_init L path [item] plist = (plist ++ [p], [none], ev) := by
  simp [plugins_init, h]

theorem plugins_free_events_append (l1 l2 : List Plugin) :
    plugins_free_events (l1 ++ l2) =
      plugins_free_events l1 ++ plugins_free_events l2 := by
  induction l1 with
  | nil => rfl
  | cons q rest ih => simp [plugins_free_events, ih]

theorem plugins_init_appends (L : Loader) (path : String) :
    ∀ (items : List String) (plist : List Plugin),
      ∃ added, (plugins_init L path items plist).1 = plist ++ added := by
  intro items
  induction items with
  | nil => exact fun plist => ⟨[], by simp [plugins_init]⟩
  | cons item rest ih =>
    intro plist
    rcases hstep : plugin_new L plist (some (path ++ G_DIR_SEPARATOR_S ++ item))
      with ⟨r, ev⟩
    rcases r with e | p
    · rcases ih plist with ⟨added, ha⟩
      exact ⟨added, by simp [plugins_init, hstep, ha]⟩
    · rcases ih (plist ++ [p]) with ⟨added, ha⟩
      exact ⟨[p] ++ added, by simp [plugins_init, hstep, ha]⟩

/-- C4: every failure path of plugin_new that follows a successful
g_module_open releases the just-opened handle exactly once before
returning; when the open itself fails, or a guard rejects the call before
the open, no handle is held; a successful load opens once and releases
nothing. -/
theorem load_one_no_handle_leak (L : Loader) (plist : List Plugin)
    (fname : Option String) : NoLeak (plugin_new L plist fname) := by
  rcases fname with _ | f
  · simp [plugin_new, NoLeak]
  · by_cases hs : L.supported = false
    · simp [plugin_new, hs, NoLeak]
    · rcases hm : L.openModule f with _ | m
      · simp [plugin_new, hs, hm, NoLeak, countOpened, countClosed]
      · by_cases hl : plugin_loaded plist m = true
        · rcases hc : m.closeOk <;>
            simp [plugin_new, hs, hm, hl, NoLeak, countOpened, countClosed,
              close_module, hc]
        · rw [Bool.not_eq_true] at hl
          rw [Bool.not_eq_false] at hs
          rw [plugin_new_opened L plist f m hs hm hl]
          rcases hv : plugin_check_version L.abi_version m with _ | _ | n
          · by_cases hi : m.has_info = false
            · rcases hc : m.closeOk <;>
                simp [NoLeak, hi, countOpened, countClosed, close_module, hc]
            · rcases hini : m.has_init <;>
                simp [NoLeak, hi, countOpened, countClosed, hini]
          · rcases hc : m.closeOk <;>
              simp [NoLeak, countOpened, countClosed, close_module, hc]
          · rcases hc : m.closeOk <;>
              simp [NoLeak, countOpened, countClosed, close_module, hc]

/-- C5: the scan of plugins_init attempts every candidate file, producing
one report entry per file even when earlier files were rejected, and the
live list grows by exactly the number of files whose load passed every
gate. -/
theorem load_all_report (L : Loader) (path : String) :
    ∀ (items : List String) (plist : List Plugin),
      (plugins_init L path items plist).2.1.length = items.length ∧
      (plugins_init L path items plist).1.length =
        plist.length +
          ((plugins_init L path items plist).2.1.filter
            (fun o => o.isNone)).length := by
  intro items
  induction items with
  | nil => intro plist; simp [plugins_init]
  | cons item rest ih =>
    intro plist
    rcases hstep : plugin_new L plist (some (path ++ G_DIR_SEPARATOR_S ++ item))
      with ⟨r, ev⟩
    rcases r with e | p
    · rcases ih plist with ⟨h1, h2⟩
      constructor
      · simp [plugins_init, hstep, h1]
      · simp [plugins_init, hstep, h2]
    · rcases ih (plist ++ [p]) with ⟨h1, h2⟩
      constructor
      · simp [plugins_init, hstep, h1]
      · simp only [plugins_init, hstep]
        simp at h2
        simp [h2]
        omega

/-- C6: evaluation at the failing input: plugins_free frees every record
but never resets the global plugin_list, so after a call on a state with
one live record the global still holds that record instead of being
empty. -/
theorem plugins_free_global_not_cleared :
    (plugins_free [pA]).1 = [pA] ∧ [pA] ≠ ([] : List Plugin) :=
  ⟨rfl, by simp⟩

/-- C9: successful loads are appended at the tail of the live list, and
plugins_free processes the live list from the front to the back, so each
record's cleanup and handle release happen in load order. -/
theorem unload_in_load_order (L : Loader) (path : String) (items : List String)
    (plist l1 l2 : List Plugin) (p : Plugin) (hsplit : plist = l1 ++ p :: l2) :
    (∃ added, (plugins_init L path items plist).1 = plist ++ added) ∧
    plugins_free_events plist =
      plugins_free_events l1 ++ plugin_free p ++ plugins_free_events l2 := by
  subst hsplit
  refine ⟨plugins_init_appends L path items _, ?_⟩
  rw [plugins_free_events_append]
  simp [plugins_free_events, List.append_assoc]

/-- Witness for unload_in_load_order at a concrete live list of two
records. -/
theorem unload_in_load_order_witness :
    (∃ added, (plugins_init L0 "dir" ["bare"] [pA, pBad]).1 = [pA, pBad] ++ added) ∧
    plugins_free_events [pA, pBad] =
      plugins_free_events [pA] ++ plugin_free pBad ++ plugins_free_events [] :=
  unload_in_load_order L0 "dir" ["bare"] [pA, pBad] [pA] [] pBad rfl

/-- C10: plugin_new with a null path rejects immediately on every loader,
supported or not, with an empty event trace (no open happens); on a
platform without dynamic module support every call rejects with an empty
trace and the scan leaves the live list unchanged. -/
theorem guard_rejects_without_open (L : Loader) (plist : List Plugin) :
    plugin_new L plist none = (Except.error LoadError.NullPath, []) ∧
    (L.supported = false →
      (∀ fname, plugin_new L plist (some fname) =
        (Except.error LoadError.NotSupported, [])) ∧
      (∀ path items, (plugins_init L path items plist).1 = plist)) := by
  refine ⟨rfl, fun hns =>
    ⟨fun fname => by simp [plugin_new, hns], fun path items => ?_⟩⟩
  induction items with
  | nil => rfl
  | cons item rest ih =>
    simp [plugins_init, plugin_new, hns, ih]

/-- Witness for guard_rejects_without_open: the null path is rejected on
the supported loader L0, and on the unsupported loader every call is
rejected and the scan leaves the live list unchanged. -/
theorem guard_rejects_without_open_witness :
    plugin_new L0 [] none = (Except.error LoadError.NullPath, []) ∧
    plugin_new Lunsupported [] (some "dir/a") =
      (Except.error LoadError.NotSupported, []) ∧
    (plugins_init Lunsupported "dir" ["a", "b"] []).1 = [] := by
  refine ⟨(guard_rejects_without_open L0 []).1, ?_, ?_⟩
  · exact ((guard_rejects_without_open Lunsupported []).2 rfl).1 "dir/a"
  · exact ((guard_rejects_without_open Lunsupported []).2 rfl).2 "dir" ["a", "b"]

theorem distinct_append (plist : List Plugin) (p : Plugin)
    (hd : DistinctNames plist) (hn : plugin_loaded plist p.module = false) :
    DistinctNames (plist ++ [p]) := by
  have hnot := (plugin_loaded_eq_false_iff plist p.module).mp hn
  show (liveNames (plist ++ [p])).Nodup
  have he : liveNames (plist ++ [p]) = liveNames plist ++ [p.module.name] := by
    simp [liveNames]
  rw [he]
  exact hd.append (List.nodup_singleton _) (List.disjoint_singleton.mpr hnot)

theorem plugins_init_distinct (L : Loader) (path : String) :
    ∀ (items : List String) (plist : List Plugin), DistinctNames plist →
      DistinctNames (plugins_init L path items plist).1 := by
  intro items
  induction items with
  | nil => intro plist h; exact h
  | cons item rest ih =>
    intro plist h
    rcases hstep : plugin_new L plist (some (path ++ G_DIR_SEPARATOR_S ++ item))
      with ⟨r, ev⟩
    rcases r with e | p
    · have hrest := ih plist h
      simpa [plugins_init, hstep] using hrest
    · have hn := plugin_new_ok_shape L plist _ p ev hstep
      have hrest := ih (plist ++ [p]) (distinct_append plist p h hn)
      simpa [plugins_init, hstep] using hrest

theorem filter_name_length_one (plist : List Plugin) (name : String)
    (hd : DistinctNames plist) (hm : name ∈ liveNames plist) :
    (plist.filter (fun q => q.module.name == name)).length = 1 := by
  have h1 : (plist.filter (fun q => q.module.name == name)).length =
      List.countP (fun q => q.module.name == name) plist :=
    (List.countP_eq_length_filter _ _).symm
  have h2 : List.countP (fun q => q.module.name == name) plist =
      (liveNames plist).count name := by
    rw [List.count_eq_countP, liveNames, List.countP_map]
    rfl
  rw [h1, h2]
  exact List.count_eq_one_of_mem hd hm

/-- C1: over any scan starting from the empty live list, no two records in
the live list resolve to the same canonical module identity; a load of a
module whose canonical identity matches a live record is rejected with
AlreadyLoaded with the just-opened handle released before returning, and
the live list keeps exactly one record with that identity. -/
theorem no_duplicate_identity (L : Loader) (path : String) (items : List String)
    (plist : List Plugin) (fname : String) (m : GModule)
    (hs : L.supported = true) (ho : L.openModule fname = some m)
    (hd : DistinctNames plist) (hm : m.name ∈ liveNames plist) :
    DistinctNames (plugins_init L path items []).1 ∧
    plugin_new L plist (some fname) =
      (Except.error LoadError.AlreadyLoaded,
        Event.moduleOpened m.name :: close_module m) ∧
    (plist.filter (fun q => q.module.name == m.name)).length = 1 := by
  have hl : plugin_loaded plist m = true := (plugin_loaded_eq_true_iff plist m).mpr hm
  refine ⟨plugins_init_distinct L path items [] (by simp [DistinctNames, liveNames]),
    ?_, filter_name_length_one plist m.name hd hm⟩
  simp [plugin_new, hs, ho, hl]

/-- Witness for no_duplicate_identity: mA and mB are the same module
reached through two path spellings. -/
theorem no_duplicate_identity_witness :
    DistinctNames (plugins_init L0 "dir" ["a", "b"] []).1 ∧
    plugin_new L0 [pA] (some "dir/b") =
      (Except.error LoadError.AlreadyLoaded,
        Event.moduleOpened mB.name :: close_module mB) ∧
    ([pA].filter (fun q => q.module.name == mB.name)).length = 1 :=
  no_duplicate_identity L0 "dir" ["a", "b"] [pA] "dir/b" mB rfl rfl
    (by decide) (by decide)

theorem liveNames_cons (q : Plugin) (rest : List Plugin) :
    liveNames (q :: rest) = q.module.name :: liveNames rest := rfl

theorem distinct_cons_iff (q : Plugin) (rest : List Plugin) :
    DistinctNames (q :: rest) ↔
      q.module.name ∉ liveNames rest ∧ DistinctNames rest := by
  show (liveNames (q :: rest)).Nodup ↔ _
  rw [liveNames_cons, List.nodup_cons]

theorem plugin_free_filter_self (p : Plugin) :
    (plugin_free p).filter (isRecordEvent p.module.name) =
      (if p.cleanup then [Event.cleanupCalled p.module.name] else []) ++
        [Event.moduleClosed p.module.name] := by
  rcases hc : p.cleanup <;> rcases ho : p.module.closeOk <;>
    simp [plugin_free, isRecordEvent, hc, ho]

theorem plugin_free_filter_ne (p : Plugin) (name : String)
    (h : ¬ p.module.name = name) :
    (plugin_free p).filter (isRecordEvent name) = [] := by
  rcases hc : p.cleanup <;> rcases ho : p.module.closeOk <;>
    simp [plugin_free, isRecordEvent, hc, ho, h]

theorem plugins_free_events_filter_notin (name : String) :
    ∀ l : List Plugin, name ∉ liveNames l →
      (plugins_free_events l).filter (isRecordEvent name) = [] := by
  intro l
  induction l with
  | nil => intro _; rfl
  | cons q rest ih =>
    intro h
    rw [liveNames_cons, List.mem_cons] at h
    push_neg at h
    simp only [plugins_free_events, List.filter_append]
    rw [plugin_free_filter_ne q name (fun he => h.1 he.symm), ih h.2]
    rfl

/-- C2: for every record in a live list with distinct canonical
identities, the unload trace restricted to that record is exactly its
cleanup call (when the cleanup symbol is present) followed by its single
handle release, whatever the other records do, including earlier records
whose handle release fails with a logged warning. -/
theorem cleanup_before_release (plist : List Plugin) (hd : DistinctNames plist)
    (p : Plugin) (hp : p ∈ plist) :
    (plugins_free_events plist).filter (isRecordEvent p.module.name) =
      (if p.cleanup then [Event.cleanupCalled p.module.name] else []) ++
        [Event.moduleClosed p.module.name] := by
  induction plist with
  | nil => cases hp
  | cons q rest ih =>
    have hd2 : q.module.name ∉ liveNames rest ∧ DistinctNames rest :=
      (distinct_cons_iff q rest).mp hd
    rcases List.mem_cons.mp hp with heq | hmem
    · subst heq
      simp only [plugins_free_events, List.filter_append]
      rw [plugin_free_filter_self,
        plugins_free_events_filter_notin p.module.name rest hd2.1, List.append_nil]
    · have hqp : ¬ q.module.name = p.module.name := by
        intro he
        apply hd2.1
        rw [he, liveNames]
        exact List.mem_map.mpr ⟨p, hmem, rfl⟩
      simp only [plugins_free_events, List.filter_append]
      rw [plugin_free_filter_ne q _ hqp, ih hd2.2 hmem]
      rfl

/-- Witness for cleanup_before_release: the earlier record pBad has a
failing handle release, yet pBare is still cleaned up and released. -/
theorem cleanup_before_release_witness :
    (plugins_free_events [pBad, pBare]).filter (isRecordEvent pBare.module.name) =
      (if pBare.cleanup then [Event.cleanupCalled pBare.module.name] else []) ++
        [Event.moduleClosed pBare.module.name] :=
  cleanup_before_release [pBad, pBare] (by decide) pBare
    (List.Mem.tail pBad (List.Mem.head []))

/-- C3: for a module whose version_check symbol resolves, a negative
result rejects the load with TooOld, a positive result N rejects it with
RequiresNewerHost carrying N, and in both cases the handle is released,
init is never called (the trace holds no initCalled event) and the record
is never added to the live list; a zero result, or an absent symbol,
passes the version gate. -/
theorem version_gate (L : Loader) (plist : List Plugin) (path item : String)
    (m : GModule) (hs : L.supported = true)
    (ho : L.openModule (path ++ G_DIR_SEPARATOR_S ++ item) = some m)
    (hd : plugin_loaded plist m = false) :
    (∀ vc, m.version_check = some vc →
      (vc L.abi_version < 0 →
        plugin_new L plist (some (path ++ G_DIR_SEPARATOR_S ++ item)) =
          (Except.error LoadError.TooOld,
            Event.moduleOpened m.name :: close_module m) ∧
        (plugins_init L path [item] plist).1 = plist) ∧
      (0 < vc L.abi_version →
        plugin_new L plist (some (path ++ G_DIR_SEPARATOR_S ++ item)) =
          (Except.error (LoadError.RequiresNewerHost (vc L.abi_version)),
            Event.moduleOpened m.name :: close_module m) ∧
        (plugins_init L path [item] plist).1 = plist) ∧
      (vc L.abi_version = 0 →
        plugin_check_version L.abi_version m = VersionGate.ok)) ∧
    (m.version_check = none →
      plugin_check_version L.abi_version m = VersionGate.ok) := by
  have hred := plugin_new_opened L plist (path ++ G_DIR_SEPARATOR_S ++ item) m hs ho hd
  constructor
  · intro vc hvc
    refine ⟨?_, ?_, ?_⟩
    · intro hneg
      have hv : plugin_check_version L.abi_version m = VersionGate.tooOld := by
        simp [plugin_check_version, hvc, hneg]
      rw [hv] at hred
      exact ⟨hred, by rw [plugins_init_single_error L path item plist _ _ hred]⟩
    · intro hpos
      have hne : ¬ vc L.abi_version < 0 := by omega
      have hv : plugin_check_version L.abi_version m =
          VersionGate.requiresNewer (vc L.abi_version) := by
        simp [plugin_check_version, hvc, hne, hpos]
      rw [hv] at hred
      exact ⟨hred, by rw [plugins_init_single_error L path item plist _ _ hred]⟩
    · intro hz
      simp [plugin_check_version, hvc, hz]
  · intro hvc
    simp [plugin_check_version, hvc]

/-- Witness for version_gate at the too-old module mOld and the
host-too-old module mNew. -/
theorem version_gate_witness :
    (plugin_new L0 [] (some ("dir" ++ G_DIR_SEPARATOR_S ++ "old")) =
        (Except.error LoadError.TooOld,
          Event.moduleOpened mOld.name :: close_module mOld) ∧
      (plugins_init L0 "dir" ["old"] []).1 = []) ∧
    (plugin_new L0 [] (some ("dir" ++ G_DIR_SEPARATOR_S ++ "new")) =
        (Except.error (LoadError.RequiresNewerHost 1),
          Event.moduleOpened mNew.name :: close_module mNew) ∧
      (plugins_init L0 "dir" ["new"] []).1 = []) := by
  constructor
  · exact ((version_gate L0 [] "dir" "old" mOld rfl rfl rfl).1
      (fun _ => -1) rfl).1 (by decide)
  · exact ((version_gate L0 [] "dir" "new" mNew rfl rfl rfl).1
      (fun _ => 1) rfl).2.1 (by decide)

/-- C7: an opened module that passes the duplicate and version gates but
does not export the mandatory info symbol is rejected with MissingInfo,
the handle is released, init is never called (no initCalled event in the
trace) and the record is never added to the live list. -/
theorem missing_info_rejected (L : Loader) (plist : List Plugin)
    (path item : String) (m : GModule) (hs : L.supported = true)
    (ho : L.openModule (path ++ G_DIR_SEPARATOR_S ++ item) = some m)
    (hd : plugin_loaded plist m = false)
    (hv : plugin_check_version L.abi_version m = VersionGate.ok)
    (hi : m.has_info = false) :
    plugin_new L plist (some (path ++ G_DIR_SEPARATOR_S ++ item)) =
      (Except.error LoadError.MissingInfo,
        Event.moduleOpened m.name :: close_module m) ∧
    (plugins_init L path [item] plist).1 = plist := by
  have hred := plugin_new_opened L plist (path ++ G_DIR_SEPARATOR_S ++ item) m hs ho hd
  rw [hv] at hred
  simp only [hi, if_pos] at hred
  exact ⟨hred, by rw [plugins_init_single_error L path item plist _ _ hred]⟩

/-- Witness for missing_info_rejected at the info-less module mNoInfo. -/
theorem missing_info_rejected_witness :
    plugin_new L0 [] (some ("dir" ++ G_DIR_SEPARATOR_S ++ "noinfo")) =
      (Except.error LoadError.MissingInfo,
        Event.moduleOpened mNoInfo.name :: close_module mNoInfo) ∧
    (plugins_init L0 "dir" ["noinfo"] []).1 = [] :=
  missing_info_rejected L0 [] "dir" "noinfo" mNoInfo rfl rfl rfl rfl rfl

/-- C8: a module exporting info but neither init nor cleanup, passing the
duplicate and version gates, loads successfully with no initCalled event,
is appended to the live list, and its plugin_free performs only the handle
release, with no cleanupCalled event and no warning. -/
theorem bare_module_load_unload (L : Loader) (plist : List Plugin)
    (path item : String) (m : GModule) (hs : L.supported = true)
    (ho : L.openModule (path ++ G_DIR_SEPARATOR_S ++ item) = some m)
    (hd : plugin_loaded plist m = false)
    (hv : plugin_check_version L.abi_version m = VersionGate.ok)
    (hi : m.has_info = true) (hni : m.has_init = false)
    (hnc : m.has_cleanup = false) (hok : m.closeOk = true) :
    plugin_new L plist (some (path ++ G_DIR_SEPARATOR_S ++ item)) =
      (Except.ok ⟨m, path ++ G_DIR_SEPARATOR_S ++ item, false, false⟩,
        [Event.moduleOpened m.name]) ∧
    (plugins_init L path [item] plist).1 =
      plist ++ [⟨m, path ++ G_DIR_SEPARATOR_S ++ item, false, false⟩] ∧
    plugin_free ⟨m, path ++ G_DIR_SEPARATOR_S ++ item, false, false⟩ =
      [Event.moduleClosed m.name] := by
  have hred := plugin_new_opened L plist (path ++ G_DIR_SEPARATOR_S ++ item) m hs ho hd
  rw [hv] at hred
  simp only [hi, hni, hnc, Bool.true_eq_false, if_neg, if_false,
    Bool.false_eq_true, List.append_nil] at hred
  refine ⟨hred, ?_, ?_⟩
  · rw [plugins_init_single_ok L path item plist _ _ hred]
  · simp [plugin_free, hok]

/-- Witness for bare_module_load_unload at the module mBare. -/
theorem bare_module_load_unload_witness :
    plugin_new L0 [] (some ("dir" ++ G_DIR_SEPARATOR_S ++ "bare")) =
      (Except.ok ⟨mBare, "dir" ++ G_DIR_SEPARATOR_S ++ "bare", false, false⟩,
        [Event.moduleOpened mBare.name]) ∧
    (plugins_init L0 "dir" ["bare"] []).1 =
      [] ++ [⟨mBare, "dir" ++ G_DIR_SEPARATOR_S ++ "bare", false, false⟩] ∧
    plugin_free ⟨mBare, "dir" ++ G_DIR_SEPARATOR_S ++ "bare", false, false⟩ =
      [Event.moduleClosed mBare.name] :=
  bare_module_load_unload L0 [] "dir" "bare" mBare rfl rfl rfl (by decide)
    rfl rfl rfl rfl

end Geany
